import Mathlib

/-!
Shallow embedding of the `EnvValidation` class (environment-configuration
validation engine) and proofs of its specified properties.

The source class keeps two mutable fields, `config_file_filters : RegExp[]`
and `resolution_paths : string[]`, mutated only by the add/remove/clear
methods.  `validateEnv` resolves schemas from configuration modules found on
disk and validates the environment bag against each schema in order,
triggering hook events; it throws on the first schema error.

Embedding choices:
  - The environment bag `Record<string, any>` is an opaque type parameter
    `Config`: the core never inspects it, only hands it to schemas and hooks.
  - A Joi schema is an opaque capability: a function from the bag to an
    optional error (`validate(config, { allowUnknown: true })` is baked into
    the capability, matching the spec's "opaque predicate object" view).
  - A JavaScript `RegExp` is a record of its `source` text, `flags`, and its
    `test` behaviour on strings.
  - The filesystem (`readdirSync`, `require`, path `resolve`) is an explicit
    record of functions, fixed for a run.
  - Hook triggering is modelled by the ordered trace of emitted events:
    `validateEnv` returns the event trace, the result (`Except` models the
    `throw`), and the post-state of the two mutable fields.
-/

/-- The error object produced by a schema's `validate`; the core only reads
its `message`. -/
structure JoiError where
  message : String
deriving DecidableEq

/-- An opaque Joi object schema: `validate(config, { allowUnknown: true })`
returns `{ error }` where `error` is absent on success. -/
structure ObjectSchema (Config : Type) where
  validate : Config → Option JoiError

/-- A JavaScript `RegExp`: pattern source text, flags, and its observable
`test` behaviour.  Two structurally distinct pattern objects may share the
same `source`. -/
structure JsRegExp where
  source : String
  flags : String
  test : String → Bool

/-- A loaded configuration module: `require(path)` yields an object whose
`validationSchema` export may be missing or falsy (`config.validationSchema
|| null` in the source collapses both to `null`), modelled as `none`. -/
structure ConfigModule (Config : Type) where
  validationSchema : Option (ObjectSchema Config)

/-- The filesystem and module-loading environment consumed by the resolver:
`resolvePath` models `resolve(path)`, `resolveIn` models
`resolve(cwd, file)`, `readdirSync` lists a directory, `requireModule`
models `require(absolutePath)`.  Fixed for a run. -/
structure FileSystem (Config : Type) where
  resolvePath : String → String
  resolveIn : String → String → String
  readdirSync : String → List String
  requireModule : String → ConfigModule Config

/-- The mutable state of the `EnvValidation` class: its two private fields. -/
structure EnvValidation where
  config_file_filters : List JsRegExp
  resolution_paths : List String

/-- Hook events of the `ENV_VALIDATION_HOOK` vocabulary, with their payloads. -/
inductive HookEvent (Config : Type) where
  | validate_before (config : Config)
  | configuration_resolved_files (files : List String)
  | configuration_loaded_schemas (schemas : List (ObjectSchema Config))
  | validate_schema (schema : ObjectSchema Config) (config : Config) (error : Option JoiError)
  | validate_after (config : Config)

/-- `addResolutionPath`: pushes the path onto `resolution_paths`. -/
def addResolutionPath (s : EnvValidation) (path : String) : EnvValidation :=
  { s with resolution_paths := s.resolution_paths ++ [path] }

/-- `addResolutionPaths`: adds each path in input order. -/
def addResolutionPaths (s : EnvValidation) (paths : List String) : EnvValidation :=
  paths.foldl addResolutionPath s

/-- `removeResolutionPath`: `this.resolution_paths.filter(p => p !== path)`. -/
def removeResolutionPath (s : EnvValidation) (path : String) : EnvValidation :=
  { s with resolution_paths := s.resolution_paths.filter (fun p => p != path) }

/-- `clearResolutionPaths`. -/
def clearResolutionPaths (s : EnvValidation) : EnvValidation :=
  { s with resolution_paths := [] }

/-- `addConfigFileFilter`: pushes the filter onto `config_file_filters`. -/
def addConfigFileFilter (s : EnvValidation) (filter : JsRegExp) : EnvValidation :=
  { s with config_file_filters := s.config_file_filters ++ [filter] }

/-- `addConfigFileFilters`: adds each filter in input order. -/
def addConfigFileFilters (s : EnvValidation) (filters : List JsRegExp) : EnvValidation :=
  filters.foldl addConfigFileFilter s

/-- `removeConfigFileFilter`:
`this.config_file_filters.filter(f => f.source !== filter.source)`. -/
def removeConfigFileFilter (s : EnvValidation) (filter : JsRegExp) : EnvValidation :=
  { s with config_file_filters := s.config_file_filters.filter (fun f => f.source != filter.source) }

/-- `clearConfigFileFilters`. -/
def clearConfigFileFilters (s : EnvValidation) : EnvValidation :=
  { s with config_file_filters := [] }

/-- Getter `configFileFilters`: returns the field, state untouched. -/
def configFileFilters (s : EnvValidation) : List JsRegExp × EnvValidation :=
  (s.config_file_filters, s)

/-- Getter `resolutionPaths`: returns the field, state untouched. -/
def resolutionPaths (s : EnvValidation) : List String × EnvValidation :=
  (s.resolution_paths, s)

/-- `passesConfigFileFilters`:
`this.config_file_filters.some(filter => filter.test(file))`. -/
def passesConfigFileFilters (s : EnvValidation) (file : String) : Bool :=
  s.config_file_filters.any (fun filter => filter.test file)

/-- The `config_files` computed for one resolution path:
`readdirSync(resolve(path)).filter(value => this.passesConfigFileFilters(value))`.
These are exactly the files subsequently loaded with `require`. -/
def pathConfigFiles {Config : Type} (fs : FileSystem Config) (s : EnvValidation)
    (path : String) : List String :=
  (fs.readdirSync (fs.resolvePath path)).filter (fun value => passesConfigFileFilters s value)

/-- The schema list contributed by one resolution path:
`config_files.map(file => require(resolve(cwd, file)))
  .map(config => config.validationSchema || null).filter(schema => schema !== null)`. -/
def pathSchemas {Config : Type} (fs : FileSystem Config) (s : EnvValidation)
    (path : String) : List (ObjectSchema Config) :=
  ((pathConfigFiles fs s path).map
      (fun file => fs.requireModule (fs.resolveIn (fs.resolvePath path) file))).filterMap
    (fun config => config.validationSchema)

/-- One resolution path's contribution to `resolveConfigValidationSchema`:
its schema list and the two hook events it triggers
(`configuration_resolved_files` then, via `tap`, `configuration_loaded_schemas`). -/
def resolvePathResult {Config : Type} (fs : FileSystem Config) (s : EnvValidation)
    (path : String) : List (ObjectSchema Config) × List (HookEvent Config) :=
  (pathSchemas fs s path,
    [HookEvent.configuration_resolved_files (pathConfigFiles fs s path),
     HookEvent.configuration_loaded_schemas (pathSchemas fs s path)])

/-- `resolveConfigValidationSchema`: maps over `resolution_paths` and
flattens (`.flat()`); the event trace interleaves per path in order. -/
def resolveConfigValidationSchema {Config : Type} (fs : FileSystem Config)
    (s : EnvValidation) : List (ObjectSchema Config) × List (HookEvent Config) :=
  ((s.resolution_paths.map (fun path => (resolvePathResult fs s path).1)).flatten,
   (s.resolution_paths.map (fun path => (resolvePathResult fs s path).2)).flatten)

/-- The `forEach` body of `validateEnv` over the resolved schema list: for
each schema, evaluate it, trigger `validate_schema` with the error in the
payload, and on an error throw
`Error("Config validation error: " + error.message)`, skipping the rest.
Returns the emitted events and the thrown message, if any. -/
def runSchemas {Config : Type} (config : Config) :
    List (ObjectSchema Config) → List (HookEvent Config) × Option String
  | [] => ([], none)
  | schema :: rest =>
    match schema.validate config with
    | some e =>
      ([HookEvent.validate_schema schema config (some e)],
       some ("Config validation error: " ++ e.message))
    | none =>
      let r := runSchemas config rest
      (HookEvent.validate_schema schema config none :: r.1, r.2)

/-- `validateEnv(config)`: triggers `validate_before`, resolves the schemas
(with their discovery events), validates against each in order, and either
propagates the first error or triggers `validate_after` and returns the
config object itself.  The post-state is also returned: the method body
never assigns to the two fields. -/
def validateEnv {Config : Type} (fs : FileSystem Config) (s : EnvValidation)
    (config : Config) :
    (List (HookEvent Config) × Except String Config) × EnvValidation :=
  match runSchemas config (resolveConfigValidationSchema fs s).1 with
  | (events, some msg) =>
    ((HookEvent.validate_before config ::
        ((resolveConfigValidationSchema fs s).2 ++ events),
      Except.error msg), s)
  | (events, none) =>
    ((HookEvent.validate_before config ::
        ((resolveConfigValidationSchema fs s).2 ++ events
          ++ [HookEvent.validate_after config]),
      Except.ok config), s)

/-- Recognizer for `validate_schema` events in a trace. -/
def isValidateSchemaEvent {Config : Type} : HookEvent Config → Bool
  | .validate_schema _ _ _ => true
  | _ => false

/-- The public operations of the class, as one vocabulary: the mutators,
the two getters, and `validateEnv`. -/
inductive EnvOp (Config : Type) where
  | addResolutionPath (path : String)
  | addResolutionPaths (paths : List String)
  | removeResolutionPath (path : String)
  | clearResolutionPaths
  | addConfigFileFilter (filter : JsRegExp)
  | addConfigFileFilters (filters : List JsRegExp)
  | removeConfigFileFilter (filter : JsRegExp)
  | clearConfigFileFilters
  | getConfigFileFilters
  | getResolutionPaths
  | runValidateEnv (fs : FileSystem Config) (config : Config)

/-- Which operations are add/remove/clear mutators. -/
def isMutator {Config : Type} : EnvOp Config → Bool
  | .addResolutionPath _ => true
  | .addResolutionPaths _ => true
  | .removeResolutionPath _ => true
  | .clearResolutionPaths => true
  | .addConfigFileFilter _ => true
  | .addConfigFileFilters _ => true
  | .removeConfigFileFilter _ => true
  | .clearConfigFileFilters => true
  | .getConfigFileFilters => false
  | .getResolutionPaths => false
  | .runValidateEnv _ _ => false

/-- Effect of each public operation on the class state. -/
def applyOp {Config : Type} (s : EnvValidation) : EnvOp Config → EnvValidation
  | .addResolutionPath path => addResolutionPath s path
  | .addResolutionPaths paths => addResolutionPaths s paths
  | .removeResolutionPath path => removeResolutionPath s path
  | .clearResolutionPaths => clearResolutionPaths s
  | .addConfigFileFilter filter => addConfigFileFilter s filter
  | .addConfigFileFilters filters => addConfigFileFilters s filters
  | .removeConfigFileFilter filter => removeConfigFileFilter s filter
  | .clearConfigFileFilters => clearConfigFileFilters s
  | .getConfigFileFilters => (configFileFilters s).2
  | .getResolutionPaths => (resolutionPaths s).2
  | .runValidateEnv fs config => (validateEnv fs s config).2

/-- The aggregated schema list as the specification words it: the
concatenation, across all resolution paths in order, of each path's
non-null schema list, where a path's list follows directory-listing order,
keeps files matching at least one filter, and drops modules whose schema
export is missing or falsy. -/
def specAggregatedSchemas {Config : Type} (fs : FileSystem Config)
    (s : EnvValidation) : List (ObjectSchema Config) :=
  (s.resolution_paths.map (fun path =>
    ((fs.readdirSync (fs.resolvePath path)).filter
        (fun file => s.config_file_filters.any (fun flt => flt.test file))).filterMap
      (fun file =>
        (fs.requireModule (fs.resolveIn (fs.resolvePath path) file)).validationSchema))).flatten

/-! Concrete demonstration scenario used by witnesses and counterexamples.
The environment bag type is instantiated with `Nat`. -/

/-- A schema that accepts every bag. -/
def schemaPass : ObjectSchema Nat := ⟨fun _ => none⟩

/-- A schema that rejects every bag with message "boom". -/
def schemaBoom : ObjectSchema Nat := ⟨fun _ => some ⟨"boom"⟩⟩

/-- A different schema that rejects the bag `0` with the same message
"boom" but accepts every other bag. -/
def schemaBoomAtZero : ObjectSchema Nat :=
  ⟨fun c => if c = 0 then some ⟨"boom"⟩ else none⟩

/-- Suffix test on filenames, used to model the behaviour of the default
filter `/\.config\.(ts|js)$/` on directory entries. -/
def hasSuffix (suffix : String) (f : String) : Bool :=
  suffix.data.isSuffixOf f.data

/-- The default filter of the class, `/\.config\.(ts|js)$/`, with its
observable `test` behaviour on filenames. -/
def demoFilter : JsRegExp :=
  ⟨"\\.config\\.(ts|js)$", "",
   fun f => hasSuffix ".config.ts" f || hasSuffix ".config.js" f⟩

/-- A second pattern object with the same source text as `demoFilter` but
different flags: structurally distinct, same pattern text. -/
def demoFilterCaseInsensitive : JsRegExp :=
  ⟨"\\.config\\.(ts|js)$", "i",
   fun f => hasSuffix ".config.ts" f || hasSuffix ".config.js" f⟩

/-- A one-directory filesystem: "appdir" holds a passing db module, a
README that is not a configuration module, and a failing auth module. -/
def demoFS : FileSystem Nat where
  resolvePath := fun p => p
  resolveIn := fun dir file => dir ++ "/" ++ file
  readdirSync := fun dir =>
    if dir = "appdir" then ["db.config.ts", "readme.md", "auth.config.ts"] else []
  requireModule := fun path =>
    if path = "appdir/db.config.ts" then ⟨some schemaPass⟩
    else if path = "appdir/auth.config.ts" then ⟨some schemaBoom⟩
    else ⟨none⟩

/-- A filesystem whose single configuration module carries
`schemaBoomAtZero`. -/
def demoFSB : FileSystem Nat where
  resolvePath := fun p => p
  resolveIn := fun dir file => dir ++ "/" ++ file
  readdirSync := fun dir => if dir = "appdir" then ["only.config.ts"] else []
  requireModule := fun path =>
    if path = "appdir/only.config.ts" then ⟨some schemaBoomAtZero⟩ else ⟨none⟩

/-- A filesystem whose single configuration module carries the passing
schema. -/
def demoFSPass : FileSystem Nat where
  resolvePath := fun p => p
  resolveIn := fun dir file => dir ++ "/" ++ file
  readdirSync := fun dir => if dir = "appdir" then ["db.config.ts"] else []
  requireModule := fun path =>
    if path = "appdir/db.config.ts" then ⟨some schemaPass⟩ else ⟨none⟩

/-- The demonstration class state: the default filter and one resolution
path. -/
def demoState : EnvValidation := ⟨[demoFilter], ["appdir"]⟩

/-- A state whose resolution-path list contains a duplicated path. -/
def demoPathsState : EnvValidation := ⟨[], ["a", "b", "a", "c"]⟩

/-! Helper lemmas about `runSchemas` and the hook-event traces. -/

/-- Characterization of `runSchemas` when the schema at index `k` is the
first one whose `validate` reports an error: the emitted events are one
error-free `validate_schema` event per earlier schema followed by the
failing schema's event carrying the error, and the thrown message wraps
the schema error's message. -/
theorem runSchemas_first_fail {Config : Type} (config : Config) :
    ∀ (schemas : List (ObjectSchema Config)) (k : Nat) (hk : k < schemas.length)
      (e : JoiError),
      (schemas.get ⟨k, hk⟩).validate config = some e →
      (∀ i (hik : i < k), (schemas.get ⟨i, hik.trans hk⟩).validate config = none) →
      runSchemas config schemas =
        ((schemas.take k).map (fun sc => HookEvent.validate_schema sc config none)
            ++ [HookEvent.validate_schema (schemas.get ⟨k, hk⟩) config (some e)],
          some ("Config validation error: " ++ e.message))
  | [], k, hk, e, _, _ => absurd hk (by simp)
  | schema :: rest, 0, _, e, hfail, _ => by
      simp only [List.get] at hfail
      simp [runSchemas, hfail]
  | schema :: rest, Nat.succ j, hk, e, hfail, hpass => by
      have h0 : schema.validate config = none := hpass 0 (Nat.succ_pos j)
      have ih := runSchemas_first_fail config rest j (Nat.lt_of_succ_lt_succ hk) e hfail
        (fun i hij => hpass (i + 1) (Nat.succ_lt_succ hij))
      simp [runSchemas, h0, ih]

/-- When every schema passes, `runSchemas` emits one error-free
`validate_schema` event per schema, in order, and throws nothing. -/
theorem runSchemas_all_pass {Config : Type} (config : Config) :
    ∀ (schemas : List (ObjectSchema Config)),
      (∀ sc ∈ schemas, sc.validate config = none) →
      runSchemas config schemas =
        (schemas.map (fun sc => HookEvent.validate_schema sc config none), none)
  | [], _ => rfl
  | schema :: rest, h => by
      have h0 : schema.validate config = none := h schema (List.mem_cons_self _ _)
      have ih := runSchemas_all_pass config rest
        (fun sc hsc => h sc (List.mem_cons_of_mem _ hsc))
      simp [runSchemas, h0, ih]

/-- `runSchemas` throws nothing iff every schema passes. -/
theorem runSchemas_none_iff {Config : Type} (config : Config) :
    ∀ (schemas : List (ObjectSchema Config)),
      (runSchemas config schemas).2 = none ↔ ∀ sc ∈ schemas, sc.validate config = none
  | [] => by simp [runSchemas]
  | schema :: rest => by
      cases h : schema.validate config with
      | some e =>
        refine iff_of_false ?_ ?_
        · simp [runSchemas, h]
        · intro hall
          have hx := hall schema (List.mem_cons_self _ _)
          rw [hx] at h
          exact Option.noConfusion h
      | none =>
        have ih := runSchemas_none_iff config rest
        simp [runSchemas, h, ih]

/-- Every event emitted by `runSchemas` is a `validate_schema` event. -/
theorem runSchemas_events_are_validate_schema {Config : Type} (config : Config) :
    ∀ (schemas : List (ObjectSchema Config)) (ev : HookEvent Config),
      ev ∈ (runSchemas config schemas).1 → isValidateSchemaEvent ev = true
  | [], ev, hmem => absurd hmem (by simp [runSchemas])
  | schema :: rest, ev, hmem => by
      cases h : schema.validate config with
      | some e =>
        rw [runSchemas, h] at hmem
        simp only [List.mem_singleton] at hmem
        subst hmem
        rfl
      | none =>
        rw [runSchemas, h] at hmem
        simp only [List.mem_cons] at hmem
        rcases hmem with rfl | hmem
        · rfl
        · exact runSchemas_events_are_validate_schema config rest ev hmem

/-- Every event emitted during schema resolution is either the
`configuration_resolved_files` event of some resolution path (carrying that
path's filtered file list) or the `configuration_loaded_schemas` event of
some resolution path. -/
theorem resolve_events_shape {Config : Type} (fs : FileSystem Config) (s : EnvValidation)
    (ev : HookEvent Config) (hev : ev ∈ (resolveConfigValidationSchema fs s).2) :
    (∃ path ∈ s.resolution_paths,
        ev = HookEvent.configuration_resolved_files (pathConfigFiles fs s path))
    ∨ (∃ path ∈ s.resolution_paths,
        ev = HookEvent.configuration_loaded_schemas (pathSchemas fs s path)) := by
  simp only [resolveConfigValidationSchema, List.mem_flatten, List.mem_map] at hev
  obtain ⟨l, ⟨path, hpath, hl⟩, hevl⟩ := hev
  rw [← hl] at hevl
  simp only [resolvePathResult, List.mem_cons, List.mem_singleton,
    List.not_mem_nil, or_false] at hevl
  rcases hevl with h | h
  · exact Or.inl ⟨path, hpath, h⟩
  · exact Or.inr ⟨path, hpath, h⟩

/-- No `validate_schema` event is emitted during schema resolution. -/
theorem resolve_events_filter_nil {Config : Type} (fs : FileSystem Config)
    (s : EnvValidation) :
    (resolveConfigValidationSchema fs s).2.filter isValidateSchemaEvent = [] := by
  rw [List.filter_eq_nil_iff]
  intro ev hev
  rcases resolve_events_shape fs s ev hev with ⟨p, _, rfl⟩ | ⟨p, _, rfl⟩ <;>
    simp [isValidateSchemaEvent]

/-- The `validate_after` event is never emitted during schema resolution. -/
theorem validate_after_not_mem_resolve_events {Config : Type} (fs : FileSystem Config)
    (s : EnvValidation) (c : Config) :
    HookEvent.validate_after c ∉ (resolveConfigValidationSchema fs s).2 := by
  intro h
  rcases resolve_events_shape fs s _ h with ⟨p, _, heq⟩ | ⟨p, _, heq⟩ <;> cases heq

/-- The `validate_after` event is never emitted by the per-schema loop. -/
theorem validate_after_not_mem_run_events {Config : Type} (config c : Config)
    (schemas : List (ObjectSchema Config)) :
    HookEvent.validate_after c ∉ (runSchemas config schemas).1 := by
  intro h
  have := runSchemas_events_are_validate_schema config schemas _ h
  simp [isValidateSchemaEvent] at this

/-- `validateEnv` never assigns to the two mutable fields: its post-state
is its pre-state. -/
theorem validateEnv_post_state {Config : Type} (fs : FileSystem Config)
    (s : EnvValidation) (config : Config) : (validateEnv fs s config).2 = s := by
  unfold validateEnv
  rcases hE : runSchemas config (resolveConfigValidationSchema fs s).1 with ⟨evs, err⟩
  cases hx : err <;> simp [hE, hx]

/-! Claim theorems. -/

/-- C1: for every ordered list of resolved schemas in which the schema at
position `k` (0-indexed here, position `k + 1` in the claim's 1-indexed
counting) is the first whose `validate` reports an error, `validateEnv`
fires exactly `k + 1` `validate_schema` hook events — one error-free event
per earlier schema and, last, the failing schema's event carrying the error
— throws the wrapped error, and emits no `validate_schema` event for any
later schema. -/
theorem validateEnv_fail_fast {Config : Type} (fs : FileSystem Config) (s : EnvValidation)
    (config : Config) (k : Nat) (e : JoiError)
    (hk : k < (resolveConfigValidationSchema fs s).1.length)
    (hfail : ((resolveConfigValidationSchema fs s).1.get ⟨k, hk⟩).validate config = some e)
    (hpass : ∀ i (hik : i < k),
      ((resolveConfigValidationSchema fs s).1.get ⟨i, hik.trans hk⟩).validate config = none) :
    ((validateEnv fs s config).1.1.filter isValidateSchemaEvent
        = ((resolveConfigValidationSchema fs s).1.take k).map
            (fun sc => HookEvent.validate_schema sc config none)
          ++ [HookEvent.validate_schema
                ((resolveConfigValidationSchema fs s).1.get ⟨k, hk⟩) config (some e)])
      ∧ ((validateEnv fs s config).1.1.filter isValidateSchemaEvent).length = k + 1
      ∧ (validateEnv fs s config).1.2
          = Except.error ("Config validation error: " ++ e.message) := by
  have hrun := runSchemas_first_fail config (resolveConfigValidationSchema fs s).1 k hk e
    hfail hpass
  have hval : validateEnv fs s config
      = ((HookEvent.validate_before config ::
            ((resolveConfigValidationSchema fs s).2 ++
              (((resolveConfigValidationSchema fs s).1.take k).map
                  (fun sc => HookEvent.validate_schema sc config none)
                ++ [HookEvent.validate_schema
                      ((resolveConfigValidationSchema fs s).1.get ⟨k, hk⟩) config (some e)])),
          Except.error ("Config validation error: " ++ e.message)), s) := by
    unfold validateEnv
    rw [hrun]
  rw [hval]
  have hfilter : (HookEvent.validate_before config ::
        ((resolveConfigValidationSchema fs s).2 ++
          (((resolveConfigValidationSchema fs s).1.take k).map
              (fun sc => HookEvent.validate_schema sc config none)
            ++ [HookEvent.validate_schema
                  ((resolveConfigValidationSchema fs s).1.get ⟨k, hk⟩) config
                  (some e)]))).filter isValidateSchemaEvent
      = ((resolveConfigValidationSchema fs s).1.take k).map
          (fun sc => HookEvent.validate_schema sc config none)
        ++ [HookEvent.validate_schema
              ((resolveConfigValidationSchema fs s).1.get ⟨k, hk⟩) config (some e)] := by
    rw [List.filter_cons_of_neg (by simp [isValidateSchemaEvent]), List.filter_append,
      resolve_events_filter_nil, List.nil_append, List.filter_eq_self.mpr]
    intro ev hev
    rw [List.mem_append] at hev
    rcases hev with hev | hev
    · rcases List.mem_map.mp hev with ⟨sc, _, rfl⟩
      rfl
    · rcases List.mem_singleton.mp hev with rfl
      rfl
  refine ⟨hfilter, ?_, rfl⟩
  rw [hfilter]
  have hlen : ((resolveConfigValidationSchema fs s).1.take k).length = k := by
    rw [List.length_take]
    omega
  simp only [List.length_append, List.length_map, List.length_singleton, hlen]

/-- C1 witness: on the demonstration filesystem the resolved schemas are
`[schemaPass, schemaBoom]`, the first failure is at 0-indexed position 1,
exactly two `validate_schema` events fire, and the call throws. -/
theorem validateEnv_fail_fast_witness :
    ((validateEnv demoFS demoState 0).1.1.filter isValidateSchemaEvent
        = [HookEvent.validate_schema schemaPass 0 none,
           HookEvent.validate_schema schemaBoom 0 (some ⟨"boom"⟩)])
      ∧ ((validateEnv demoFS demoState 0).1.1.filter isValidateSchemaEvent).length = 2
      ∧ (validateEnv demoFS demoState 0).1.2
          = Except.error "Config validation error: boom" := by
  have h := validateEnv_fail_fast demoFS demoState 0 1 ⟨"boom"⟩ (by decide)
    rfl
    (fun i hik => by
      interval_cases i
      rfl)
  exact ⟨h.1.trans rfl, h.2.1, h.2.2.trans rfl⟩

/-- C2 counterexample: the thrown error does not describe which schema
failed.  Two runs whose first failing schemas are different schema objects
(`schemaBoom`, failing second of two, versus `schemaBoomAtZero`, failing
first of one) throw byte-identical errors, so the error carries no
information identifying the failing schema; it only wraps the underlying
message. -/
theorem validateEnv_error_identifies_no_schema :
    (validateEnv demoFS demoState 0).1.2 = Except.error "Config validation error: boom"
    ∧ (validateEnv demoFSB demoState 0).1.2 = Except.error "Config validation error: boom"
    ∧ (resolveConfigValidationSchema demoFS demoState).1 = [schemaPass, schemaBoom]
    ∧ (resolveConfigValidationSchema demoFSB demoState).1 = [schemaBoomAtZero]
    ∧ schemaBoom ≠ schemaBoomAtZero := by
  refine ⟨rfl, rfl, rfl, rfl, ?_⟩
  intro h
  have h1 : schemaBoom.validate 1 = schemaBoomAtZero.validate 1 := by rw [h]
  simp [schemaBoom, schemaBoomAtZero] at h1

/-- C2 amended: when the schema at position `k` is the first to report an
error, `validateEnv` fails with an error whose message is the fixed prefix
"Config validation error: " followed by the underlying schema error's
message; the failing schema's identity is not part of the thrown error. -/
theorem validateEnv_error_wraps_message {Config : Type} (fs : FileSystem Config)
    (s : EnvValidation) (config : Config) (k : Nat) (e : JoiError)
    (hk : k < (resolveConfigValidationSchema fs s).1.length)
    (hfail : ((resolveConfigValidationSchema fs s).1.get ⟨k, hk⟩).validate config = some e)
    (hpass : ∀ i (hik : i < k),
      ((resolveConfigValidationSchema fs s).1.get ⟨i, hik.trans hk⟩).validate config = none) :
    (validateEnv fs s config).1.2
      = Except.error ("Config validation error: " ++ e.message) := by
  have hrun := runSchemas_first_fail config (resolveConfigValidationSchema fs s).1 k hk e
    hfail hpass
  unfold validateEnv
  rw [hrun]

/-- C2 amended witness: on `demoFSB`, the single resolved schema fails on
the bag `0` with message "boom" and the call throws the wrapped message. -/
theorem validateEnv_error_wraps_message_witness :
    (validateEnv demoFSB demoState 0).1.2
      = Except.error ("Config validation error: " ++ "boom") :=
  validateEnv_error_wraps_message demoFSB demoState 0 0 ⟨"boom"⟩ (by decide) rfl
    (fun i hik => absurd hik (Nat.not_lt_zero i))

/-- Every event in a `validateEnv` trace is the opening `validate_before`,
a schema-resolution event, a per-schema `validate_schema` event, or the
closing `validate_after`. -/
theorem validateEnv_trace_cases {Config : Type} (fs : FileSystem Config)
    (s : EnvValidation) (config : Config) (ev : HookEvent Config)
    (h : ev ∈ (validateEnv fs s config).1.1) :
    ev = HookEvent.validate_before config
    ∨ ev ∈ (resolveConfigValidationSchema fs s).2
    ∨ ev ∈ (runSchemas config (resolveConfigValidationSchema fs s).1).1
    ∨ ev = HookEvent.validate_after config := by
  unfold validateEnv at h
  rcases hE : runSchemas config (resolveConfigValidationSchema fs s).1 with ⟨evs, err⟩
  rw [hE] at h
  have hevs : evs = (runSchemas config (resolveConfigValidationSchema fs s).1).1 := by
    rw [hE]
  cases err with
  | some msg =>
    simp only [List.mem_cons, List.mem_append] at h
    rcases h with rfl | h | h
    · exact Or.inl rfl
    · exact Or.inr (Or.inl h)
    · exact Or.inr (Or.inr (Or.inl (hevs ▸ h)))
  | none =>
    simp only [List.mem_cons, List.mem_append, List.mem_singleton,
      List.not_mem_nil, or_false] at h
    rcases h with rfl | (h | h) | rfl
    · exact Or.inl rfl
    · exact Or.inr (Or.inl h)
    · exact Or.inr (Or.inr (Or.inl (hevs ▸ h)))
    · exact Or.inr (Or.inr (Or.inr rfl))

/-- C3: the `validate_after` hook fires during `validateEnv` iff every
resolved schema's `validate` reported no error on the environment bag; it
never fires when any schema fails. -/
theorem validate_after_iff_all_pass {Config : Type} (fs : FileSystem Config)
    (s : EnvValidation) (config : Config) :
    HookEvent.validate_after config ∈ (validateEnv fs s config).1.1
      ↔ ∀ sc ∈ (resolveConfigValidationSchema fs s).1, sc.validate config = none := by
  rw [← runSchemas_none_iff]
  constructor
  · intro hmem
    rcases hE : runSchemas config (resolveConfigValidationSchema fs s).1 with ⟨evs, err⟩
    cases err with
    | some msg =>
      exfalso
      have htrace : (validateEnv fs s config).1.1
          = HookEvent.validate_before config ::
              ((resolveConfigValidationSchema fs s).2 ++ evs) := by
        unfold validateEnv
        rw [hE]
      rw [htrace] at hmem
      simp only [List.mem_cons, List.mem_append] at hmem
      rcases hmem with heq | hr | hr
      · exact absurd heq (by simp)
      · exact validate_after_not_mem_resolve_events fs s config hr
      · have hevs : evs = (runSchemas config (resolveConfigValidationSchema fs s).1).1 := by
          rw [hE]
        exact validate_after_not_mem_run_events config config _ (hevs ▸ hr)
    | none => rfl
  · intro hnone
    unfold validateEnv
    rcases hE : runSchemas config (resolveConfigValidationSchema fs s).1 with ⟨evs, err⟩
    rw [hE] at hnone
    cases err with
    | some msg => exact absurd hnone (by simp)
    | none => simp

/-- C3 witness: on the all-pass filesystem, `validate_after` fires;
instantiating the iff with the concrete run. -/
theorem validate_after_iff_all_pass_witness :
    HookEvent.validate_after 7 ∈ (validateEnv demoFSPass demoState 7).1.1 :=
  (validate_after_iff_all_pass demoFSPass demoState 7).mpr
    (fun sc hsc => by
      have : sc = schemaPass := by
        have hres : (resolveConfigValidationSchema demoFSPass demoState).1 = [schemaPass] := rfl
        rw [hres] at hsc
        exact List.mem_singleton.mp hsc
      rw [this]
      rfl)

/-- C4: when every resolved schema passes, `validateEnv` returns exactly
the environment bag it was given (the same value, validation is a pure
check, not a transform). -/
theorem validateEnv_returns_bag_unchanged {Config : Type} (fs : FileSystem Config)
    (s : EnvValidation) (config : Config)
    (h : ∀ sc ∈ (resolveConfigValidationSchema fs s).1, sc.validate config = none) :
    (validateEnv fs s config).1.2 = Except.ok config := by
  have hrun := runSchemas_all_pass config (resolveConfigValidationSchema fs s).1 h
  unfold validateEnv
  rw [hrun]

/-- C4 witness: on the all-pass filesystem with bag `7`, the call returns
`7` itself. -/
theorem validateEnv_returns_bag_unchanged_witness :
    (validateEnv demoFSPass demoState 7).1.2 = Except.ok 7 :=
  validateEnv_returns_bag_unchanged demoFSPass demoState 7
    (fun sc hsc => by
      have : sc = schemaPass := by
        have hres : (resolveConfigValidationSchema demoFSPass demoState).1 = [schemaPass] := rfl
        rw [hres] at hsc
        exact List.mem_singleton.mp hsc
      rw [this]
      rfl)

/-- C5: the resolved schema list equals the concatenation, over resolution
paths in their stored order, of each path's schemas taken in
directory-listing order, with modules whose schema export is missing or
falsy contributing nothing; order is preserved and no deduplication is
performed (the right-hand side is the specification-worded aggregation,
which keeps duplicates as they come). -/
theorem resolved_schemas_are_spec_concatenation {Config : Type} (fs : FileSystem Config)
    (s : EnvValidation) :
    (resolveConfigValidationSchema fs s).1 = specAggregatedSchemas fs s := by
  simp only [resolveConfigValidationSchema, specAggregatedSchemas, resolvePathResult,
    pathSchemas, pathConfigFiles, passesConfigFileFilters, List.filterMap_map,
    Function.comp_def]

/-- C6: a directory entry encountered during resolution is loaded as a
module iff its base filename matches at least one config file filter
(matching is run on the listing entry, never the absolute path), and an
entry matching no filter never appears in any `configuration_resolved_files`
hook payload of the whole `validateEnv` call. -/
theorem config_file_filter_gate {Config : Type} (fs : FileSystem Config)
    (s : EnvValidation) (config : Config) (path : String)
    (_hpath : path ∈ s.resolution_paths) (entry : String)
    (hentry : entry ∈ fs.readdirSync (fs.resolvePath path)) :
    (entry ∈ pathConfigFiles fs s path
        ↔ ∃ flt ∈ s.config_file_filters, flt.test entry = true)
    ∧ (passesConfigFileFilters s entry = false →
        ∀ files,
          HookEvent.configuration_resolved_files files ∈ (validateEnv fs s config).1.1 →
          entry ∉ files) := by
  constructor
  · simp [pathConfigFiles, List.mem_filter, hentry, passesConfigFileFilters,
      List.any_eq_true]
  · intro hfalse files hmem hin
    rcases validateEnv_trace_cases fs s config _ hmem with heq | hr | hr | heq
    · exact HookEvent.noConfusion heq
    · rcases resolve_events_shape fs s _ hr with ⟨p, hp, heq⟩ | ⟨p, hp, heq⟩
      · injection heq with hfiles
        subst hfiles
        simp only [pathConfigFiles, List.mem_filter, hfalse] at hin
        exact Bool.noConfusion hin.2
      · exact HookEvent.noConfusion heq
    · have := runSchemas_events_are_validate_schema config _ _ hr
      simp [isValidateSchemaEvent] at this
    · exact HookEvent.noConfusion heq

/-- C6 witness: in the demonstration directory, "readme.md" matches no
filter, is not among the loaded config files, and appears in no
`configuration_resolved_files` payload. -/
theorem config_file_filter_gate_witness :
    ("readme.md" ∉ pathConfigFiles demoFS demoState "appdir")
    ∧ ∀ files,
        HookEvent.configuration_resolved_files files ∈ (validateEnv demoFS demoState 0).1.1 →
        "readme.md" ∉ files := by
  have h := config_file_filter_gate demoFS demoState 0 "appdir" (by decide) "readme.md"
    (by decide)
  exact ⟨fun hm => absurd (h.1.mp hm) (by decide), h.2 (by decide)⟩

/-- C7: removal of a config file filter compares pattern source text, so a
structurally distinct pattern object with identical source text removes a
previously added filter. -/
theorem removeConfigFileFilter_matches_source_text (s : EnvValidation) (f g : JsRegExp)
    (hsrc : f.source = g.source) :
    f ∉ (removeConfigFileFilter s g).config_file_filters := by
  intro hmem
  have hkeep := (List.mem_filter.mp hmem).2
  rw [hsrc] at hkeep
  simp at hkeep

/-- C7 witness: `demoFilterCaseInsensitive` has the same source text as the
installed `demoFilter` but different flags; removing with it expels
`demoFilter`. -/
theorem removeConfigFileFilter_matches_source_text_witness :
    demoFilter.source = demoFilterCaseInsensitive.source
    ∧ demoFilter ≠ demoFilterCaseInsensitive
    ∧ demoFilter ∈ demoState.config_file_filters
    ∧ demoFilter ∉ (removeConfigFileFilter demoState demoFilterCaseInsensitive).config_file_filters := by
  refine ⟨rfl, ?_, by simp [demoState], 
    removeConfigFileFilter_matches_source_text demoState demoFilter
      demoFilterCaseInsensitive rfl⟩
  intro h
  have hflags := congrArg JsRegExp.flags h
  simp [demoFilter, demoFilterCaseInsensitive] at hflags

/-- C8: two consecutive `validateEnv` calls with the same environment bag,
the same fixed filesystem and no intervening mutation — the second call
starts from the first call's post-state — produce identical traces,
results, and states (determinism of the outcome across runs). -/
theorem validateEnv_rerun_same_outcome {Config : Type} (fs : FileSystem Config)
    (s : EnvValidation) (config : Config) :
    validateEnv fs (validateEnv fs s config).2 config = validateEnv fs s config := by
  rw [validateEnv_post_state]

/-- C9: the resolution-path and filter sets are changed only by the
add/remove/clear mutators: every non-mutator operation — either getter, or
`validateEnv` whether it completes or fails — leaves the state exactly as
it was. -/
theorem non_mutator_ops_preserve_state {Config : Type} (s : EnvValidation)
    (op : EnvOp Config) (h : isMutator op = false) : applyOp s op = s := by
  cases op with
  | addResolutionPath path => simp [isMutator] at h
  | addResolutionPaths paths => simp [isMutator] at h
  | removeResolutionPath path => simp [isMutator] at h
  | clearResolutionPaths => simp [isMutator] at h
  | addConfigFileFilter filter => simp [isMutator] at h
  | addConfigFileFilters filters => simp [isMutator] at h
  | removeConfigFileFilter filter => simp [isMutator] at h
  | clearConfigFileFilters => simp [isMutator] at h
  | getConfigFileFilters => rfl
  | getResolutionPaths => rfl
  | runValidateEnv fs config => exact validateEnv_post_state fs s config

/-- C9 witness: a throwing `validateEnv` run on the demonstration state is
a non-mutator and leaves the state unchanged. -/
theorem non_mutator_ops_preserve_state_witness :
    isMutator (EnvOp.runValidateEnv demoFS (0 : Nat)) = false
    ∧ applyOp demoState (EnvOp.runValidateEnv demoFS (0 : Nat)) = demoState :=
  ⟨rfl, non_mutator_ops_preserve_state demoState (EnvOp.runValidateEnv demoFS 0) rfl⟩

/-- C10: `removeResolutionPath` removes every occurrence equal to the given
path (the result no longer contains it), keeps the remaining paths in
their relative order (the result is a sublist of the original), and keeps
every occurrence of every other path (occurrence counts of distinct paths
are untouched). -/
theorem removeResolutionPath_removes_all_occurrences (s : EnvValidation) (path : String) :
    path ∉ (removeResolutionPath s path).resolution_paths
    ∧ (removeResolutionPath s path).resolution_paths.Sublist s.resolution_paths
    ∧ ∀ q : String, q ≠ path →
        (removeResolutionPath s path).resolution_paths.count q
          = s.resolution_paths.count q := by
  refine ⟨?_, ?_, ?_⟩
  · intro hmem
    have := (List.mem_filter.mp hmem).2
    simp at this
  · exact List.filter_sublist _
  · intro q hq
    exact List.count_filter (by simpa using hq)

/-- C10 witness: removing "a" from the path list ["a", "b", "a", "c"]
drops both occurrences, keeps order, and keeps the count of "b". -/
theorem removeResolutionPath_removes_all_occurrences_witness :
    "a" ∉ (removeResolutionPath demoPathsState "a").resolution_paths
    ∧ (removeResolutionPath demoPathsState "a").resolution_paths.Sublist
        demoPathsState.resolution_paths
    ∧ (removeResolutionPath demoPathsState "a").resolution_paths.count "b"
        = demoPathsState.resolution_paths.count "b" :=
  ⟨(removeResolutionPath_removes_all_occurrences demoPathsState "a").1,
   (removeResolutionPath_removes_all_occurrences demoPathsState "a").2.1,
   (removeResolutionPath_removes_all_occurrences demoPathsState "a").2.2 "b" (by decide)⟩
